import Mathlib

/-!
Shallow embedding of `inline.py`, a DWARF inlining report tool, together
with proofs of the behavioural claims made by its design specification.

The source walks the debug information entries (DIEs) of an ELF binary's
compilation units (CUs), resolves each function-like entry's identity
(name, declaration file and line, linkage symbol) by following chains of
`DW_AT_specification` references, classifies entries by the `DW_AT_inline`
enum, filters, deduplicates and sorts the result, and prints one line per
surviving identity.

Modelling conventions, stated once:
* Attribute values in the source are Python objects; the ones the program
  touches are strings and unsigned integers, modelled by `AttrVal`.
* A DIE's attribute dictionary (`die.attributes`) is modelled as an
  association list from attribute-name strings to values; `DIE.getAttr`
  models `die.attributes.get(name)`.
* The external accessor boundary (pyelftools): the per-unit line-program
  file table, include-directory table and the top DIE's `DW_AT_comp_dir`
  value are carried as fields of `CU`, exactly the data the source reads.
* The source's specification-chain recursion has no cycle guard and can
  diverge; recursive resolution therefore takes an explicit `fuel`
  argument, with fuel exhaustion denoting divergence of the source.
* An out-of-range file-table or directory-table index raises `IndexError`
  in the source (a hard failure permitted by the format contract); the
  embedding returns `none` there and the theorems about in-range behaviour
  carry in-range hypotheses.
* Exceptions the claims are about (`KeyError`, `AttributeError`,
  `CalledProcessError`, `TypeError`) are modelled with `Except PyErr`.
-/

/-- Attribute value of a DIE: the program only ever manipulates string
attributes (names, linkage names) and unsigned integer attributes (line
numbers, file indices, inline enum, reference offsets). -/
inductive AttrVal where
  | str : String → AttrVal
  | num : Nat → AttrVal
deriving DecidableEq, Repr

/-- Extracts a string value, `none` on an integer attribute. -/
def AttrVal.asStr : AttrVal → Option String
  | AttrVal.str s => some s
  | AttrVal.num _ => none

/-- Extracts an integer value, `none` on a string attribute. -/
def AttrVal.asNum : AttrVal → Option Nat
  | AttrVal.str _ => none
  | AttrVal.num n => some n

/-- Python truthiness of an attribute value: `0` and `""` are falsy. -/
def AttrVal.truthy : AttrVal → Bool
  | AttrVal.str s => s ≠ ""
  | AttrVal.num n => n ≠ 0

/-- Python `str()` rendering used by `%s` formatting. -/
def AttrVal.pyStr : AttrVal → String
  | AttrVal.str s => s
  | AttrVal.num n => toString n

/-- One entry of the line program's file table: a file name and an index
into the include-directory table (`0` meaning the compilation directory). -/
structure FileEntry where
  name : String
  dir_index : Nat
deriving DecidableEq, Repr

/-- Debug information entry: a tag, the entry's offset in the debug
section, and its attribute dictionary. -/
structure DIE where
  tag : String
  offset : Nat
  attrs : List (String × AttrVal)
deriving DecidableEq, Repr

/-- Models `die.attributes.get(name)`. -/
def DIE.getAttr (d : DIE) (a : String) : Option AttrVal :=
  (d.attrs.lookup a)

/-- Compilation unit: its offset in the debug section, its DIEs in
document order, and the accessor-provided line-program tables plus the
top DIE's `DW_AT_comp_dir` value. -/
structure CU where
  cu_offset : Nat
  dies : List DIE
  comp_dir : String
  file_entry : List FileEntry
  include_directory : List String
deriving DecidableEq, Repr

/-- Models `get_die_at_offset(cu, offset)`: linear scan for the first DIE
whose offset equals `cu.cu_offset + offset`, `None` if there is none. -/
def get_die_at_offset (cu : CU) (offset : Nat) : Option DIE :=
  cu.dies.find? (fun d => d.offset = cu.cu_offset + offset)

/-- Models `s.startswith(p)`: character-level prefix test. -/
def strStartsWith (s p : String) : Bool :=
  p.data.isPrefixOf s.data

/-- Models `s.endswith(p)`: character-level suffix test. -/
def strEndsWith (s p : String) : Bool :=
  p.data.isSuffixOf s.data

/-- Splits a character list at every occurrence of `c`, keeping empty
segments, as Python's `str.split` with an explicit separator does. -/
def splitCharList (c : Char) : List Char → List (List Char)
  | [] => [[]]
  | x :: xs =>
    let r := splitCharList c xs
    if x = c then [] :: r
    else
      match r with
      | [] => [[x]]
      | h :: t => (x :: h) :: t

/-- Models `path.split('/')`. -/
def pySplitSlash (s : String) : List String :=
  (splitCharList '/' s.data).map String.mk

/-- Models `'/'.join(parts)`. -/
def joinSlash : List String → String
  | [] => ""
  | [x] => x
  | x :: xs => x ++ "/" ++ joinSlash xs

/-- Models POSIX `os.path.join(a, b)` for two arguments. -/
def posixJoin (a b : String) : String :=
  if strStartsWith b "/" then b
  else if a = "" ∨ strEndsWith a "/" then a ++ b
  else a ++ "/" ++ b

/-- Component-folding step of `posixpath.normpath`: skip empty and `.`
components, pop on `..` (except at the start of a relative path or after
an unpopped `..`), push everything else. -/
def normpathStep (initialSlashes : Nat) (acc : List String) (comp : String) :
    List String :=
  if comp = "" ∨ comp = "." then acc
  else if comp ≠ ".." ∨ (initialSlashes = 0 ∧ acc = []) ∨
      acc.getLast? = some ".." then acc ++ [comp]
  else acc.dropLast

/-- Models `posixpath.normpath`: collapses `.`/`..`/empty path segments;
a leading `//` (but not `///`) is preserved as two slashes. -/
def normpath (path : String) : String :=
  if path = "" then "."
  else
    let initialSlashes : Nat :=
      if strStartsWith path "/" then
        if strStartsWith path "//" ∧ ¬ strStartsWith path "///" then 2 else 1
      else 0
    let comps := pySplitSlash path
    let newComps := comps.foldl (normpathStep initialSlashes) []
    let joined := joinSlash newComps
    let out := String.mk (List.replicate initialSlashes '/') ++ joined
    if out = "" then "." else out

/-- Models `get_filename(cu, file_idx)`: `None` on a falsy index, else the
normalized join of the directory (from the include-directory table at
`dir_index - 1` when `dir_index` is non-zero, else the compilation
directory) with the file name from the file table at `file_idx - 1`.
An out-of-range table index raises `IndexError` in the source and is
modelled as `none`. -/
def get_filename (cu : CU) (file_idx : Nat) : Option String :=
  if file_idx = 0 then none
  else
    match cu.file_entry[file_idx - 1]? with
    | none => none
    | some fe =>
      let dir? : Option String :=
        if fe.dir_index ≠ 0 then cu.include_directory[fe.dir_index - 1]?
        else some cu.comp_dir
      dir?.map (fun dir => normpath (posixJoin dir fe.name))

/-- Models `get_coords_file(die, attr)`: `None` when the attribute is
absent, else `get_filename` of its value. -/
def get_coords_file (cu : CU) (d : DIE) (attr : String) : Option String :=
  match d.getAttr attr with
  | none => none
  | some (AttrVal.num idx) => get_filename cu idx
  | some (AttrVal.str _) => none

/-- The identity resolver: wraps one DIE of one CU
(`FunctionInfo(die)` in the source, with `die.cu` carried explicitly). -/
structure FunctionInfo where
  cu : CU
  die : DIE
deriving DecidableEq, Repr

/-- Models `FunctionInfo.specification`: reads the `DW_AT_specification`
offset; a falsy (absent or zero) offset yields `None`; an offset at which
no DIE is found is logged as a warning and yields `None`. -/
def FunctionInfo.specification (f : FunctionInfo) : Option FunctionInfo :=
  match f.die.getAttr "DW_AT_specification" with
  | some (AttrVal.num off) =>
      if off = 0 then none
      else (get_die_at_offset f.cu off).map (fun d => FunctionInfo.mk f.cu d)
  | _ => none

/-- Models `FunctionInfo._get_attribute_recursive`: return the direct
attribute when present, otherwise recurse into the specification entry
when there is one, otherwise `None`. The source recursion has no cycle
guard; `fuel` bounds the modelled recursion depth, `fuel = 0` denoting
divergence of the source. -/
def FunctionInfo.getAttributeRecursive :
    Nat → FunctionInfo → String → Option AttrVal
  | 0, _, _ => none
  | fuel + 1, f, a =>
    match f.die.getAttr a with
    | some attr => some attr
    | none =>
      match f.specification with
      | some s => FunctionInfo.getAttributeRecursive fuel s a
      | none => none

/-- Models `FunctionInfo.name`. -/
def FunctionInfo.name (fuel : Nat) (f : FunctionInfo) : Option String :=
  (f.getAttributeRecursive fuel "DW_AT_name").bind AttrVal.asStr

/-- Models `FunctionInfo.filename`: the recursively resolved
`DW_AT_decl_file` index (`or 0` turns absence into index `0`), put
through `get_filename` against the wrapped DIE's own CU. -/
def FunctionInfo.filename (fuel : Nat) (f : FunctionInfo) : Option String :=
  get_filename f.cu
    (((f.getAttributeRecursive fuel "DW_AT_decl_file").bind AttrVal.asNum).getD 0)

/-- Models `FunctionInfo.line`. -/
def FunctionInfo.line (fuel : Nat) (f : FunctionInfo) : Option Nat :=
  (f.getAttributeRecursive fuel "DW_AT_decl_line").bind AttrVal.asNum

/-- Models `FunctionInfo.linkage_name`. -/
def FunctionInfo.linkage_name (fuel : Nat) (f : FunctionInfo) : Option String :=
  (f.getAttributeRecursive fuel "DW_AT_linkage_name").bind AttrVal.asStr

/-- Models `FunctionInfo.inline_enum`: the recursively resolved
`DW_AT_inline` value with `or 0` collapsing absence (and value `0`)
to `0`. -/
def FunctionInfo.inline_enum (fuel : Nat) (f : FunctionInfo) : Nat :=
  (((f.getAttributeRecursive fuel "DW_AT_inline").bind AttrVal.asNum).getD 0)

/-- Models `FunctionInfo.is_inlined`: membership of the enum in `(1, 3)`. -/
def FunctionInfo.is_inlined (fuel : Nat) (f : FunctionInfo) : Bool :=
  f.inline_enum fuel = 1 ∨ f.inline_enum fuel = 3

/-- Models `FunctionInfo.declared_inline`: membership of the enum in
`(2, 3)`. -/
def FunctionInfo.declared_inline (fuel : Nat) (f : FunctionInfo) : Bool :=
  f.inline_enum fuel = 2 ∨ f.inline_enum fuel = 3

/-- Models `FunctionInfo.cmp_tuple`, the comparison key
`(filename, line, linkage_name)`. -/
def FunctionInfo.cmp_tuple (fuel : Nat) (f : FunctionInfo) :
    Option String × Option Nat × Option String :=
  (f.filename fuel, f.line fuel, f.linkage_name fuel)

/-- Models Python's `hash(FunctionInfo)`, which hashes the linkage name
alone; the concrete hash function is irrelevant to the claims, so Lean's
is used as the model. -/
def FunctionInfo.hashValue (fuel : Nat) (f : FunctionInfo) : UInt64 :=
  hash (f.linkage_name fuel)

/-- Models `iter_by_tag(cu, tag)`. -/
def iter_by_tag (cu : CU) (tag : String) : List DIE :=
  cu.dies.filter (fun d => d.tag = tag)

/-- Models `iter_subprogram_dies(cu)`. -/
def iter_subprogram_dies (cu : CU) : List DIE :=
  iter_by_tag cu "DW_TAG_subprogram"

/-- Models `iter_functions(cu)`: every subprogram DIE wrapped in a
resolver. -/
def iter_functions (cu : CU) : List FunctionInfo :=
  (iter_subprogram_dies cu).map (fun d => FunctionInfo.mk cu d)

/-- Python truthiness of an optional string (`None` and `""` are falsy),
as tested by `if func.filename` and `if func.linkage_name`. -/
def optStrTruthy : Option String → Bool
  | some s => s ≠ ""
  | none => false

/-- Models `s.startswith(tuple(ps))`: true when `s` starts with any of
the given strings. -/
def pyStartswithAny (s : String) (ps : List String) : Bool :=
  ps.any (fun p => strStartsWith s p)

/-- Models the generator chain inside `main.iter_inlined` for one CU:
keep inlined functions, drop falsy filenames, drop ignored filename
starts (the filter is only installed when `ignore` is non-empty), drop
falsy linkage names. -/
def iter_inlined_cu (fuel : Nat) (ignore : List String) (cu : CU) :
    List FunctionInfo :=
  let functions := iter_functions cu
  let functions := functions.filter (fun f => f.is_inlined fuel)
  let functions := functions.filter (fun f => optStrTruthy (f.filename fuel))
  let functions :=
    if ignore.isEmpty then functions
    else functions.filter
      (fun f => ! pyStartswithAny ((f.filename fuel).getD "") ignore)
  functions.filter (fun f => optStrTruthy (f.linkage_name fuel))

/-- Models `main.iter_inlined`: the per-CU chains concatenated over all
compilation units. -/
def iter_inlined (fuel : Nat) (ignore : List String) (cus : List CU) :
    List FunctionInfo :=
  cus.flatMap (iter_inlined_cu fuel ignore)

/-- Comparison key type of the report: `(filename, line, linkage_name)`
with optional components. -/
abbrev ReportKey := Option String × Option Nat × Option String

/-- An optional value viewed in `WithBot`, placing `None` below every
present value — CPython 2 orders `None` below everything. -/
def optBot {α : Type} : Option α → WithBot α
  | none => ⊥
  | some x => (x : WithBot α)

/-- The lexicographic embedding of a report key: file, then line, then
linkage symbol, mirroring Python's tuple comparison on `cmp_tuple`. -/
def keyEmbed (k : ReportKey) :
    Lex (WithBot String × Lex (WithBot Nat × WithBot String)) :=
  toLex (optBot k.1, toLex (optBot k.2.1, optBot k.2.2))

/-- The total order on report keys used by `sorted`. -/
def keyLE (a b : ReportKey) : Prop :=
  keyEmbed a ≤ keyEmbed b

instance : DecidableRel keyLE :=
  fun a b => inferInstanceAs (Decidable (keyEmbed a ≤ keyEmbed b))

instance : IsTrans ReportKey keyLE :=
  ⟨fun _ _ _ h h' => le_trans h h'⟩

instance : IsTotal ReportKey keyLE :=
  ⟨fun a b => le_total (keyEmbed a) (keyEmbed b)⟩

/-- Models `sorted(set(iter_inlined()))` at the level of comparison keys:
the set deduplicates by `__eq__` (equality of `cmp_tuple`), then `sorted`
orders by `__lt__` (tuple comparison); since the deduplicated keys are
pairwise distinct, any comparison sort yields the same list, modelled by
insertion sort. -/
def report_keys (fuel : Nat) (ignore : List String) (cus : List CU) :
    List ReportKey :=
  List.insertionSort keyLE
    (((iter_inlined fuel ignore cus).map (FunctionInfo.cmp_tuple fuel)).dedup)

/-- Python exceptions the modelled code can raise. -/
inductive PyErr where
  | keyError : String → PyErr
  | attributeError : PyErr
  | typeError : PyErr
  | calledProcessError : PyErr
deriving DecidableEq, Repr

/-- Python `'%s'` rendering of an optional string: `None` prints as
the four-letter word `None`. -/
def pyStrOpt : Option String → String
  | some s => s
  | none => "None"

/-- Models `get_die_call_coords(die)`: the call file resolved from the
DIE's own `DW_AT_call_file` (not recursively), formatted with the DIE's
own `DW_AT_call_line` (`KeyError` when absent, `TypeError` on `%i` with
a string). -/
def get_die_call_coords (cu : CU) (d : DIE) : Except PyErr String :=
  let filename := get_coords_file cu d "DW_AT_call_file"
  match d.getAttr "DW_AT_call_line" with
  | some (AttrVal.num line) =>
      Except.ok (pyStrOpt filename ++ ":" ++ toString line)
  | some (AttrVal.str _) => Except.error PyErr.typeError
  | none => Except.error (PyErr.keyError "DW_AT_call_line")

/-- Models the `while 'DW_AT_specification' in origin.attributes` loop of
`process`: starting from the value of `get_die_at_offset` (which may be
`None`, on which the loop test raises `AttributeError`), follow
specification offsets until an entry without the attribute is reached.
The source loop has no cycle guard; the outer `Option` is `none` when
`fuel` runs out, denoting divergence of the source. -/
def processSpecLoop (cu : CU) : Nat → Option DIE → Option (Except PyErr DIE)
  | _, none => some (Except.error PyErr.attributeError)
  | fuel, some o =>
    match o.getAttr "DW_AT_specification" with
    | none => some (Except.ok o)
    | some (AttrVal.str _) => some (Except.error PyErr.typeError)
    | some (AttrVal.num off) =>
      match fuel with
      | 0 => none
      | fuel + 1 => processSpecLoop cu fuel (get_die_at_offset cu off)

/-- Models the body of `process` for one inlined-subroutine DIE: read the
`DW_AT_abstract_origin` offset (`KeyError` when absent), resolve it,
run the specification-following loop, then read the final entry's
`DW_AT_name` (`KeyError` when absent) and the call coordinates. -/
def processDIE (cu : CU) (fuel : Nat) (d : DIE) :
    Option (Except PyErr (String × String)) :=
  match d.getAttr "DW_AT_abstract_origin" with
  | none => some (Except.error (PyErr.keyError "DW_AT_abstract_origin"))
  | some (AttrVal.str _) => some (Except.error PyErr.typeError)
  | some (AttrVal.num off) =>
    (processSpecLoop cu fuel (get_die_at_offset cu off)).map (fun r =>
      r.bind (fun origin =>
        match origin.getAttr "DW_AT_name" with
        | none => Except.error (PyErr.keyError "DW_AT_name")
        | some v =>
          (get_die_call_coords cu d).map (fun coords => (v.pyStr, coords))))

/-- Folds `process`'s printing loop over a list of DIEs: non-call-site
DIEs are skipped, a raised exception aborts the loop, otherwise the
printed `(name, coords)` pairs are collected in order. -/
def processList (cu : CU) (fuel : Nat) :
    List DIE → Option (Except PyErr (List (String × String)))
  | [] => some (Except.ok [])
  | d :: ds =>
    if d.tag = "DW_TAG_inlined_subroutine" then
      match processDIE cu fuel d with
      | none => none
      | some (Except.error e) => some (Except.error e)
      | some (Except.ok p) =>
        (processList cu fuel ds).map (fun r => r.map (fun ps => p :: ps))
    else processList cu fuel ds

/-- Models `process(cu)`: the loop over all DIEs of the unit. -/
def process (cu : CU) (fuel : Nat) :
    Option (Except PyErr (List (String × String))) :=
  processList cu fuel cu.dies

/-- Modelled from the spec: the call-site walk as §4.3 words it — follow
specification references "until an entry with a direct name attribute is
found" — i.e. the loop stops at the first entry carrying a direct
`DW_AT_name`, instead of the source's stopping at the first entry lacking
`DW_AT_specification`. -/
def specModelSpecLoop (cu : CU) : Nat → Option DIE → Option (Except PyErr DIE)
  | _, none => some (Except.error PyErr.attributeError)
  | fuel, some o =>
    if (o.getAttr "DW_AT_name").isSome then some (Except.ok o)
    else
      match o.getAttr "DW_AT_specification" with
      | none => some (Except.error (PyErr.keyError "DW_AT_name"))
      | some (AttrVal.str _) => some (Except.error PyErr.typeError)
      | some (AttrVal.num off) =>
        match fuel with
        | 0 => none
        | fuel + 1 => specModelSpecLoop cu fuel (get_die_at_offset cu off)

/-- Modelled from the spec: `processDIE` with the spec-worded loop. -/
def specModelProcessDIE (cu : CU) (fuel : Nat) (d : DIE) :
    Option (Except PyErr (String × String)) :=
  match d.getAttr "DW_AT_abstract_origin" with
  | none => some (Except.error (PyErr.keyError "DW_AT_abstract_origin"))
  | some (AttrVal.str _) => some (Except.error PyErr.typeError)
  | some (AttrVal.num off) =>
    (specModelSpecLoop cu fuel (get_die_at_offset cu off)).map (fun r =>
      r.bind (fun origin =>
        match origin.getAttr "DW_AT_name" with
        | none => Except.error (PyErr.keyError "DW_AT_name")
        | some v =>
          (get_die_call_coords cu d).map (fun coords => (v.pyStr, coords))))

/-- Models one iteration of `main`'s printing loop for one surviving
function, at the level of its comparison key: the optional
`'%s:%i '` declaration column (`TypeError` when the line is `None`), then
either the demangled or the raw linkage symbol. The demangler `dem`
models `subprocess.check_output(['c++filt', sym])`, whose non-zero exit
raises `CalledProcessError`. -/
def renderFunc (dem : String → Except PyErr String)
    (declaration demangle : Bool) (k : ReportKey) : Except PyErr String :=
  match
    (if declaration then
      match k.2.1 with
      | some l => Except.ok (pyStrOpt k.1 ++ ":" ++ toString l ++ " ")
      | none => Except.error PyErr.typeError
    else Except.ok "") with
  | Except.error e => Except.error e
  | Except.ok pre =>
    if demangle then
      match dem (pyStrOpt k.2.2) with
      | Except.error e => Except.error e
      | Except.ok u => Except.ok (pre ++ u)
    else Except.ok (pre ++ pyStrOpt k.2.2)

/-- Models `main`'s printing loop over the sorted, deduplicated report:
an exception raised for one function (in particular a demangling failure)
propagates and aborts the production of all remaining lines. -/
def renderReport (dem : String → Except PyErr String)
    (declaration demangle : Bool) :
    List ReportKey → Except PyErr (List String)
  | [] => Except.ok []
  | k :: ks =>
    match renderFunc dem declaration demangle k with
    | Except.error e => Except.error e
    | Except.ok line =>
      match renderReport dem declaration demangle ks with
      | Except.error e => Except.error e
      | Except.ok lines => Except.ok (line :: lines)

/-- One step of the specification chain, lifted to `Option` so that the
chain can be iterated: the chain from an entry is acyclic exactly when
some iterate reaches `none`. -/
def specStep : Option FunctionInfo → Option FunctionInfo
  | none => none
  | some f => f.specification

/-- Sample out-of-line declaration entry: carries name, file, line and
inline enum. -/
def dieA : DIE :=
  DIE.mk "DW_TAG_subprogram" 110
    [("DW_AT_name", AttrVal.str "foo"), ("DW_AT_decl_file", AttrVal.num 1),
     ("DW_AT_decl_line", AttrVal.num 10), ("DW_AT_inline", AttrVal.num 1),
     ("DW_AT_linkage_name", AttrVal.str "_Z3foov")]

/-- Sample definition entry: no direct name/file/line, a specification
reference to `dieA` (unit-relative offset `10`), its own linkage name
and inline enum. -/
def dieB : DIE :=
  DIE.mk "DW_TAG_subprogram" 120
    [("DW_AT_specification", AttrVal.num 10), ("DW_AT_inline", AttrVal.num 3),
     ("DW_AT_linkage_name", AttrVal.str "_Z3foov")]

/-- Sample subprogram entry with no attributes at all. -/
def dieBare : DIE := DIE.mk "DW_TAG_subprogram" 130 []

/-- Sample compilation unit holding the three sample entries. -/
def sampleCU : CU :=
  CU.mk 100 [dieA, dieB, dieBare] "/src"
    [FileEntry.mk "a.c" 0, FileEntry.mk "inc.h" 1] ["/inc"]

/-- Sample entry carrying an empty linkage-name string: inlined, with a
declaration file, yet dropped by the classifier's truthiness test. -/
def dieEmptyLink : DIE :=
  DIE.mk "DW_TAG_subprogram" 210
    [("DW_AT_decl_file", AttrVal.num 1), ("DW_AT_inline", AttrVal.num 1),
     ("DW_AT_linkage_name", AttrVal.str "")]

/-- Sample compilation unit holding only `dieEmptyLink`. -/
def cuEmptyLink : CU :=
  CU.mk 200 [dieEmptyLink] "/src" [FileEntry.mk "b.c" 0] []

/-- Sample demangler: fails on one particular symbol, succeeds on all
others. -/
def demSample : String → Except PyErr String :=
  fun s =>
    if s = "_Zbad" then Except.error PyErr.calledProcessError
    else Except.ok ("D" ++ s)

/-- Sample inlined call-site entry whose abstract-origin offset resolves
to no DIE of the unit. -/
def dieBadCall : DIE :=
  DIE.mk "DW_TAG_inlined_subroutine" 310
    [("DW_AT_abstract_origin", AttrVal.num 99),
     ("DW_AT_call_file", AttrVal.num 1), ("DW_AT_call_line", AttrVal.num 7)]

/-- Sample subprogram entry whose specification offset resolves to no
DIE of the unit. -/
def dieDangleSpec : DIE :=
  DIE.mk "DW_TAG_subprogram" 320
    [("DW_AT_specification", AttrVal.num 99),
     ("DW_AT_linkage_name", AttrVal.str "_Z1gv")]

/-- Sample compilation unit with the two dangling-reference entries. -/
def cuBadOrigin : CU :=
  CU.mk 300 [dieBadCall, dieDangleSpec] "/src" [FileEntry.mk "c.c" 0] []

/-- Sample abstract-origin target: carries a direct name AND a further
specification reference. -/
def dieOriginA : DIE :=
  DIE.mk "DW_TAG_subprogram" 410
    [("DW_AT_name", AttrVal.str "foo"), ("DW_AT_specification", AttrVal.num 20)]

/-- Sample end of the specification chain: named, no further reference. -/
def dieSpecB : DIE :=
  DIE.mk "DW_TAG_subprogram" 420 [("DW_AT_name", AttrVal.str "bar")]

/-- Sample inlined call-site entry referring to `dieOriginA`. -/
def dieCallSite : DIE :=
  DIE.mk "DW_TAG_inlined_subroutine" 430
    [("DW_AT_abstract_origin", AttrVal.num 10),
     ("DW_AT_call_file", AttrVal.num 1), ("DW_AT_call_line", AttrVal.num 5)]

/-- Sample compilation unit for the call-site walk. -/
def cuCallSite : CU :=
  CU.mk 400 [dieOriginA, dieSpecB, dieCallSite] "/src"
    [FileEntry.mk "a.c" 0] []

/-- Claim helper: the one-step unfolding of the recursive attribute
resolver at positive fuel. -/
theorem getAttributeRecursive_succ (fuel : Nat) (f : FunctionInfo)
    (a : String) :
    f.getAttributeRecursive (fuel + 1) a =
      match f.die.getAttr a with
      | some v => some v
      | none =>
        match f.specification with
        | some s => s.getAttributeRecursive fuel a
        | none => none := rfl

/-- Unfolding of `specStep` on a present resolver. -/
theorem specStep_some (f : FunctionInfo) :
    specStep (some f) = f.specification := rfl

/-- Guarding an empty string by `"."` never yields the empty string. -/
theorem ite_empty_dot_ne (s : String) : (if s = "" then "." else s) ≠ "" := by
  split
  · simp
  · assumption

/-- Path normalization never yields the empty string. -/
theorem normpath_ne_empty (p : String) : normpath p ≠ "" := by
  unfold normpath
  split
  · simp
  · exact ite_empty_dot_ne _

/-- A coordinate the resolver does produce is never the empty string. -/
theorem get_filename_ne_empty (cu : CU) (i : Nat) (s : String)
    (h : get_filename cu i = some s) : s ≠ "" := by
  by_cases h0 : i = 0
  · simp [get_filename, h0] at h
  · simp only [get_filename, h0, if_false] at h
    cases hfe : cu.file_entry[i - 1]? with
    | none => rw [hfe] at h; simp at h
    | some fe =>
      rw [hfe] at h
      simp only [Option.map_eq_some'] at h
      obtain ⟨dir, _, hdir⟩ := h
      exact hdir ▸ normpath_ne_empty _

/-- Truthiness of an optional string described by an existential. -/
theorem optStrTruthy_iff (o : Option String) :
    optStrTruthy o = true ↔ ∃ s, o = some s ∧ s ≠ "" := by
  cases o <;> simp [optStrTruthy]

/-- Truthiness of a resolved filename collapses to mere presence,
because normalization never returns the empty string. -/
theorem filename_truthy_iff (fuel : Nat) (f : FunctionInfo) :
    optStrTruthy (f.filename fuel) = true ↔ ∃ fn, f.filename fuel = some fn := by
  cases h : f.filename fuel with
  | none => simp [optStrTruthy]
  | some s =>
    have hs : s ≠ "" := by
      unfold FunctionInfo.filename at h
      exact get_filename_ne_empty f.cu _ s h
    simp [optStrTruthy, hs]

/-- Membership in the per-CU classifier chain, phrased attribute by
attribute. -/
theorem mem_iter_inlined_cu (fuel : Nat) (ignore : List String)
    (cu' cu : CU) (d : DIE) :
    FunctionInfo.mk cu d ∈ iter_inlined_cu fuel ignore cu' ↔
      (cu' = cu ∧ d ∈ cu.dies ∧ d.tag = "DW_TAG_subprogram"
       ∧ FunctionInfo.is_inlined fuel (FunctionInfo.mk cu d) = true
       ∧ optStrTruthy (FunctionInfo.filename fuel (FunctionInfo.mk cu d))
          = true
       ∧ (ignore.isEmpty = false →
          pyStartswithAny
            ((FunctionInfo.filename fuel (FunctionInfo.mk cu d)).getD "")
            ignore = false)
       ∧ optStrTruthy (FunctionInfo.linkage_name fuel (FunctionInfo.mk cu d))
          = true) := by
  by_cases hig : ignore.isEmpty <;>
    simp [iter_inlined_cu, hig, iter_functions, iter_subprogram_dies,
      iter_by_tag, List.mem_filter, List.mem_map, FunctionInfo.mk.injEq] <;>
    aesop

/-- Claim C2 (amended): the classifier keeps exactly the
subprogram-tagged entries of the units whose resolved `is_inlined` is
true, whose resolved declaration file is present and does not start with
any ignored prefix string, and whose resolved linkage symbol is present
and non-empty — the source tests Python truthiness, so an empty linkage
string is also dropped. -/
theorem c2_classifier (fuel : Nat) (ignore : List String) (cus : List CU)
    (cu : CU) (d : DIE) :
    FunctionInfo.mk cu d ∈ iter_inlined fuel ignore cus ↔
      (cu ∈ cus ∧ d ∈ cu.dies ∧ d.tag = "DW_TAG_subprogram"
       ∧ FunctionInfo.is_inlined fuel (FunctionInfo.mk cu d) = true
       ∧ (∃ fn, FunctionInfo.filename fuel (FunctionInfo.mk cu d) = some fn
            ∧ ∀ p ∈ ignore, strStartsWith fn p = false)
       ∧ (∃ s, FunctionInfo.linkage_name fuel (FunctionInfo.mk cu d) = some s
            ∧ s ≠ "")) := by
  rw [iter_inlined, List.mem_flatMap]
  constructor
  · rintro ⟨cu', hcu', hf⟩
    rw [mem_iter_inlined_cu] at hf
    obtain ⟨rfl, hdies, htag, hinl, htr, hign, hlk⟩ := hf
    refine ⟨hcu', hdies, htag, hinl, ?_, (optStrTruthy_iff _).mp hlk⟩
    obtain ⟨fn, hfn⟩ := (filename_truthy_iff fuel _).mp htr
    refine ⟨fn, hfn, fun p hp => ?_⟩
    have hne : ignore.isEmpty = false := by
      cases hie : ignore.isEmpty
      · rfl
      · rw [List.isEmpty_iff] at hie
        simp [hie] at hp
    have hany := hign hne
    rw [hfn] at hany
    simp only [Option.getD_some, pyStartswithAny, List.any_eq_false] at hany
    simpa using hany p hp
  · rintro ⟨hcu, hdies, htag, hinl, ⟨fn, hfn, hign⟩, hlk⟩
    refine ⟨cu, hcu, ?_⟩
    rw [mem_iter_inlined_cu]
    refine ⟨rfl, hdies, htag, hinl,
      (filename_truthy_iff fuel _).mpr ⟨fn, hfn⟩, ?_,
      (optStrTruthy_iff _).mpr hlk⟩
    intro _
    rw [hfn]
    simp only [Option.getD_some, pyStartswithAny, List.any_eq_false]
    intro p hp
    simp [hign p hp]

/-- Counterexample to C2 as stated: an inlined entry with a resolved
declaration file and a present (but empty) linkage symbol satisfies every
condition of the claim, yet the classifier drops it. -/
theorem c2_counterexample :
    FunctionInfo.is_inlined 3 (FunctionInfo.mk cuEmptyLink dieEmptyLink)
      = true
    ∧ FunctionInfo.filename 3 (FunctionInfo.mk cuEmptyLink dieEmptyLink)
      ≠ none
    ∧ FunctionInfo.linkage_name 3 (FunctionInfo.mk cuEmptyLink dieEmptyLink)
      ≠ none
    ∧ dieEmptyLink ∈ iter_subprogram_dies cuEmptyLink
    ∧ FunctionInfo.mk cuEmptyLink dieEmptyLink
        ∉ iter_inlined 3 [] [cuEmptyLink] := by
  have hsub : iter_subprogram_dies cuEmptyLink = [dieEmptyLink] := rfl
  have hrun : iter_inlined 3 [] [cuEmptyLink] = [] := rfl
  refine ⟨rfl, by decide, by decide, ?_, ?_⟩
  · rw [hsub]; exact List.mem_singleton_self _
  · rw [hrun]; exact List.not_mem_nil _

/-- Claim C3: the final report is sorted non-decreasingly by the
`(file, line, symbol)` key, every key produced by the classifier appears
exactly once, and a missing component orders before any present one at
each position of the key. -/
theorem count_eq_one_of_mem_beq {α : Type} [BEq α] [LawfulBEq α] {a : α} :
    ∀ {l : List α}, l.Nodup → a ∈ l → l.count a = 1 := by
  intro l
  induction l with
  | nil => intro _ h; cases h
  | cons b l ih =>
    intro hnd hmem
    rw [List.count_cons]
    rcases List.mem_cons.mp hmem with rfl | hmem'
    · have hnot : a ∉ l := (List.nodup_cons.mp hnd).1
      simp [List.count_eq_zero.mpr hnot]
    · have hne : ¬ (a = b) := by
        rintro rfl
        exact (List.nodup_cons.mp hnd).1 hmem'
      have hne' : ¬ (b = a) := fun hx => hne hx.symm
      simp [ih (List.nodup_cons.mp hnd).2 hmem', hne, hne']

/-- Claim C3: the final report is sorted non-decreasingly by the
`(file, line, symbol)` key, every key produced by the classifier appears
exactly once, and a missing component orders before any present one at
each position of the key. -/
theorem c3_report_sorted_dedup (fuel : Nat) (ignore : List String)
    (cus : List CU) :
    List.Sorted keyLE (report_keys fuel ignore cus)
    ∧ (∀ k ∈ (iter_inlined fuel ignore cus).map (FunctionInfo.cmp_tuple fuel),
        (report_keys fuel ignore cus).count k = 1)
    ∧ (∀ (s : String) (b c : Option Nat) (u v : Option String),
        keyLE (none, b, u) (some s, c, v))
    ∧ (∀ (fl : Option String) (n : Nat) (u v : Option String),
        keyLE (fl, none, u) (fl, some n, v))
    ∧ (∀ (fl : Option String) (ln : Option Nat) (s : String),
        keyLE (fl, ln, none) (fl, ln, some s)) := by
  refine ⟨List.sorted_insertionSort keyLE _, ?_, ?_, ?_, ?_⟩
  · intro k hk
    have hperm := List.perm_insertionSort keyLE
      (((iter_inlined fuel ignore cus).map
        (FunctionInfo.cmp_tuple fuel)).dedup)
    have hnd : (report_keys fuel ignore cus).Nodup :=
      hperm.nodup_iff.mpr (List.nodup_dedup _)
    have hmem : k ∈ report_keys fuel ignore cus :=
      hperm.mem_iff.mpr ((List.mem_dedup).mpr hk)
    exact count_eq_one_of_mem_beq hnd hmem
  · intro s b c u v
    simp only [keyLE, keyEmbed, optBot, Prod.Lex.le_iff]
    exact Or.inl (WithBot.bot_lt_coe s)
  · intro fl n u v
    simp only [keyLE, keyEmbed, optBot, Prod.Lex.le_iff]
    exact Or.inr ⟨trivial, Or.inl (WithBot.bot_lt_coe n)⟩
  · intro fl ln s
    simp only [keyLE, keyEmbed, optBot, Prod.Lex.le_iff]
    exact Or.inr ⟨trivial, Or.inr ⟨trivial, bot_le⟩⟩

/-- Claim C10: equal comparison tuples force equal hash values (the hash
reads only the linkage symbol, the tuple's third component), so the
hash-based set deduplication of the report never retains two identities
that compare equal: the deduplicated key list is duplicate-free. -/
theorem c10_hash_consistent (fuel : Nat) (f g : FunctionInfo)
    (h : f.cmp_tuple fuel = g.cmp_tuple fuel) :
    f.hashValue fuel = g.hashValue fuel
    ∧ ∀ (ignore : List String) (cus : List CU),
        (((iter_inlined fuel ignore cus).map
          (FunctionInfo.cmp_tuple fuel)).dedup).Nodup := by
  constructor
  · have h3 : f.linkage_name fuel = g.linkage_name fuel :=
      congrArg (fun t => t.2.2) h
    simp [FunctionInfo.hashValue, h3]
  · intro ignore cus
    exact List.nodup_dedup _

/-- Witness for C10: the two sample entries resolve to the same
comparison tuple (one via its specification chain), hence to the same
hash value. -/
theorem c10_witness :
    FunctionInfo.hashValue 4 (FunctionInfo.mk sampleCU dieA)
      = FunctionInfo.hashValue 4 (FunctionInfo.mk sampleCU dieB)
    ∧ (((iter_inlined 4 [] [sampleCU]).map
        (FunctionInfo.cmp_tuple 4)).dedup).Nodup :=
  let h := c10_hash_consistent 4 (FunctionInfo.mk sampleCU dieA)
    (FunctionInfo.mk sampleCU dieB) (by decide)
  ⟨h.1, h.2 [] [sampleCU]⟩

/-- Claim C4: for every entry, `is_inlined` holds exactly when the
resolved inline enum is `1` or `3`, `declared_inline` exactly when it is
`2` or `3`, and absence of the inline attribute along the whole
specification chain is treated as value `0`, making both flags false. -/
theorem c4_inline_classification (fuel : Nat) (f : FunctionInfo) :
    (f.is_inlined fuel = true ↔
      (f.inline_enum fuel = 1 ∨ f.inline_enum fuel = 3))
    ∧ (f.declared_inline fuel = true ↔
      (f.inline_enum fuel = 2 ∨ f.inline_enum fuel = 3))
    ∧ (f.getAttributeRecursive fuel "DW_AT_inline" = none →
      f.inline_enum fuel = 0 ∧ f.is_inlined fuel = false ∧
        f.declared_inline fuel = false) := by
  refine ⟨?_, ?_, ?_⟩
  · simp [FunctionInfo.is_inlined]
  · simp [FunctionInfo.declared_inline]
  · intro h
    have he : f.inline_enum fuel = 0 := by simp [FunctionInfo.inline_enum, h]
    exact ⟨he, by simp [FunctionInfo.is_inlined, he],
      by simp [FunctionInfo.declared_inline, he]⟩

/-- Witness for C4 at a concrete attribute-free entry. -/
theorem c4_witness :
    FunctionInfo.inline_enum 3 (FunctionInfo.mk sampleCU dieBare) = 0
    ∧ FunctionInfo.is_inlined 3 (FunctionInfo.mk sampleCU dieBare) = false
    ∧ FunctionInfo.declared_inline 3 (FunctionInfo.mk sampleCU dieBare)
      = false :=
  (c4_inline_classification 3 (FunctionInfo.mk sampleCU dieBare)).2.2
    (by decide)

/-- Claim C5: the coordinate resolver returns `None` on a zero index (and
on an absent one, which the caller turns into index `0`); otherwise it
reads the file table at `file_index - 1`, takes the directory from the
include-directory table at `dir_index - 1` when the entry's directory
index is non-zero and from the unit's compilation directory when it is
zero, and returns the normalized join of directory and file name. -/
theorem c5_coordinate_resolver (cu : CU) (idx : Nat) (fe : FileEntry)
    (hidx : idx ≠ 0) (hfe : cu.file_entry[idx - 1]? = some fe) :
    get_filename cu 0 = none
    ∧ (∀ (fuel : Nat) (f : FunctionInfo),
        f.getAttributeRecursive fuel "DW_AT_decl_file" = none →
        f.filename fuel = none)
    ∧ (fe.dir_index = 0 →
        get_filename cu idx = some (normpath (posixJoin cu.comp_dir fe.name)))
    ∧ (∀ dir, fe.dir_index ≠ 0 →
        cu.include_directory[fe.dir_index - 1]? = some dir →
        get_filename cu idx = some (normpath (posixJoin dir fe.name))) := by
  refine ⟨by simp [get_filename], ?_, ?_, ?_⟩
  · intro fuel f h
    simp [FunctionInfo.filename, h, get_filename]
  · intro h0
    simp [get_filename, hidx, hfe, h0]
  · intro dir hne hdir
    simp [get_filename, hidx, hfe, hne, hdir]

/-- Witness for C5 at the sample unit's second file-table entry, whose
directory index points into the include-directory table. -/
theorem c5_witness :
    get_filename sampleCU 0 = none
    ∧ get_filename sampleCU 2 = some (normpath (posixJoin "/inc" "inc.h")) := by
  have h := c5_coordinate_resolver sampleCU 2 (FileEntry.mk "inc.h" 1)
    (by decide) (by decide)
  exact ⟨h.1, h.2.2.2 "/inc" (by decide) (by decide)⟩

/-- Claim C1: an entry lacking a direct name, declaration file,
declaration line or linkage symbol, but carrying a specification
reference, resolves each of those fields to the specification entry's
resolved value; each attribute falls back independently, a directly
present attribute always winning regardless of the chain. -/
theorem c1_specification_fallback (cu : CU) (d d' : DIE) (fuel : Nat)
    (hspec : (FunctionInfo.mk cu d).specification
      = some (FunctionInfo.mk cu d')) :
    (d.getAttr "DW_AT_name" = none →
      FunctionInfo.name (fuel + 1) (FunctionInfo.mk cu d)
        = FunctionInfo.name fuel (FunctionInfo.mk cu d'))
    ∧ (d.getAttr "DW_AT_decl_file" = none →
      FunctionInfo.filename (fuel + 1) (FunctionInfo.mk cu d)
        = FunctionInfo.filename fuel (FunctionInfo.mk cu d'))
    ∧ (d.getAttr "DW_AT_decl_line" = none →
      FunctionInfo.line (fuel + 1) (FunctionInfo.mk cu d)
        = FunctionInfo.line fuel (FunctionInfo.mk cu d'))
    ∧ (d.getAttr "DW_AT_linkage_name" = none →
      FunctionInfo.linkage_name (fuel + 1) (FunctionInfo.mk cu d)
        = FunctionInfo.linkage_name fuel (FunctionInfo.mk cu d'))
    ∧ (∀ (a : String) (v : AttrVal), d.getAttr a = some v →
      FunctionInfo.getAttributeRecursive (fuel + 1) (FunctionInfo.mk cu d) a
        = some v) := by
  refine ⟨?_, ?_, ?_, ?_, ?_⟩
  · intro h
    simp [FunctionInfo.name, getAttributeRecursive_succ, h, hspec]
  · intro h
    simp [FunctionInfo.filename, getAttributeRecursive_succ, h, hspec]
  · intro h
    simp [FunctionInfo.line, getAttributeRecursive_succ, h, hspec]
  · intro h
    simp [FunctionInfo.linkage_name, getAttributeRecursive_succ, h, hspec]
  · intro a v h
    simp [getAttributeRecursive_succ, h]

/-- Witness for C1: the sample definition entry `dieB` resolves name,
file and line through its specification reference to `dieA`, while its
directly present linkage name wins. -/
theorem c1_witness :
    FunctionInfo.name 4 (FunctionInfo.mk sampleCU dieB)
      = FunctionInfo.name 3 (FunctionInfo.mk sampleCU dieA)
    ∧ FunctionInfo.filename 4 (FunctionInfo.mk sampleCU dieB)
      = FunctionInfo.filename 3 (FunctionInfo.mk sampleCU dieA)
    ∧ FunctionInfo.line 4 (FunctionInfo.mk sampleCU dieB)
      = FunctionInfo.line 3 (FunctionInfo.mk sampleCU dieA)
    ∧ FunctionInfo.getAttributeRecursive 4 (FunctionInfo.mk sampleCU dieB)
        "DW_AT_linkage_name" = some (AttrVal.str "_Z3foov") := by
  have h := c1_specification_fallback sampleCU dieB dieA 3 (by decide)
  exact ⟨h.1 (by decide), h.2.1 (by decide), h.2.2.1 (by decide),
    h.2.2.2.2 "DW_AT_linkage_name" (AttrVal.str "_Z3foov") (by decide)⟩

/-- Claim helper: once the specification chain from `f` dies out within
`k` steps, the recursive resolver's answer is the same for every fuel
bound of at least `k`. -/
theorem getAttributeRecursive_stable (a : String) :
    ∀ (k : Nat) (f : FunctionInfo), specStep^[k] (some f) = none →
      ∀ m, k ≤ m →
        f.getAttributeRecursive m a = f.getAttributeRecursive k a := by
  intro k
  induction k with
  | zero =>
    intro f h
    simp at h
  | succ k ih =>
    intro f h m hm
    obtain ⟨m, rfl⟩ : ∃ n, m = n + 1 := ⟨m - 1, by omega⟩
    rw [Function.iterate_succ_apply, specStep_some] at h
    rw [getAttributeRecursive_succ, getAttributeRecursive_succ]
    cases hd : f.die.getAttr a with
    | some v => rfl
    | none =>
      cases hs : f.specification with
      | none => rfl
      | some s =>
        rw [hs] at h
        exact ih s h m (by omega)

/-- Claim C9: whenever the specification chain from an entry is acyclic
(some iterate of the chain step reaches `none`), recursive attribute
resolution terminates — its value is independent of any sufficient fuel
bound; the recursion reads the direct attribute first, follows only the
specification attribute, and stops exactly when an entry lacks it. -/
theorem c9_termination (a : String) (k : Nat) (f : FunctionInfo)
    (hterm : specStep^[k] (some f) = none) :
    (∀ m n, k ≤ m → k ≤ n →
      f.getAttributeRecursive m a = f.getAttributeRecursive n a)
    ∧ (∀ (g : FunctionInfo) (m : Nat) (v : AttrVal),
      g.die.getAttr a = some v → g.getAttributeRecursive (m + 1) a = some v)
    ∧ (∀ (g : FunctionInfo) (m : Nat), g.die.getAttr a = none →
      g.specification = none → g.getAttributeRecursive (m + 1) a = none)
    ∧ (∀ (g s : FunctionInfo) (m : Nat), g.die.getAttr a = none →
      g.specification = some s →
      g.getAttributeRecursive (m + 1) a = s.getAttributeRecursive m a) := by
  refine ⟨?_, ?_, ?_, ?_⟩
  · intro m n hm hn
    rw [getAttributeRecursive_stable a k f hterm m hm,
      getAttributeRecursive_stable a k f hterm n hn]
  · intro g m v h
    simp [getAttributeRecursive_succ, h]
  · intro g m h hs
    simp [getAttributeRecursive_succ, h, hs]
  · intro g s m h hs
    simp [getAttributeRecursive_succ, h, hs]

/-- Witness for C9: the sample chain `dieB → dieA` dies out in two steps,
so fuel bounds `5` and `9` resolve the name identically. -/
theorem c9_witness :
    FunctionInfo.getAttributeRecursive 5 (FunctionInfo.mk sampleCU dieB)
        "DW_AT_name"
      = FunctionInfo.getAttributeRecursive 9 (FunctionInfo.mk sampleCU dieB)
        "DW_AT_name" :=
  (c9_termination "DW_AT_name" 2 (FunctionInfo.mk sampleCU dieB)
    (by decide)).1 5 9 (by decide) (by decide)

/-- A successfully rendered demangled line presupposes that the external
demangler succeeded on that entry's symbol. -/
theorem renderFunc_ok_dem (dem : String → Except PyErr String)
    (declaration : Bool) (k : ReportKey) (s : String)
    (h : renderFunc dem declaration true k = Except.ok s) :
    ∃ u, dem (pyStrOpt k.2.2) = Except.ok u := by
  cases hd : dem (pyStrOpt k.2.2) with
  | ok u => exact ⟨u, rfl⟩
  | error e =>
    exfalso
    unfold renderFunc at h
    cases declaration with
    | false => simp [hd] at h
    | true =>
      cases hl : k.2.1 with
      | none => simp [hl] at h
      | some l => simp [hl, hd] at h

/-- Claim C6 (amended): a demangling failure is not recovered per symbol —
`check_output` raises `CalledProcessError`, which propagates out of the
printing loop, so a full report is only produced when every symbol
demangles successfully. -/
theorem c6_demangle_abort (dem : String → Except PyErr String)
    (declaration : Bool) (ks : List ReportKey) (ls : List String)
    (hok : renderReport dem declaration true ks = Except.ok ls) :
    ∀ k ∈ ks, ∃ u, dem (pyStrOpt k.2.2) = Except.ok u := by
  induction ks generalizing ls with
  | nil => intro k hk; cases hk
  | cons k0 ks ih =>
    intro k hk
    rw [renderReport] at hok
    cases hr : renderFunc dem declaration true k0 with
    | error e => rw [hr] at hok; cases hok
    | ok s0 =>
      rw [hr] at hok
      cases hrs : renderReport dem declaration true ks with
      | error e => rw [hrs] at hok; cases hok
      | ok ls' =>
        rcases List.mem_cons.mp hk with rfl | hk'
        · exact renderFunc_ok_dem dem declaration k s0 hr
        · exact ih ls' hrs k hk'

/-- Counterexample to C6 as stated: with a demangler failing on the first
symbol only, the loop aborts with `CalledProcessError` and the line for
the second (successfully demangling) symbol is never produced. -/
theorem c6_counterexample :
    renderReport demSample false true
      [(some "a.c", some 1, some "_Zbad"), (some "b.c", some 2, some "_Zgood")]
      = Except.error PyErr.calledProcessError
    ∧ demSample "_Zgood" = Except.ok "D_Zgood" := ⟨rfl, rfl⟩

/-- Witness for the amended C6 at a concrete one-line report. -/
theorem c6_witness :
    ∃ u, demSample "_Zgood" = Except.ok u :=
  c6_demangle_abort demSample false [(some "b.c", some 2, some "_Zgood")]
    ["D_Zgood"] rfl (some "b.c", some 2, some "_Zgood")
    (List.mem_singleton_self _)

/-- Claim C7 (amended): an unresolvable specification offset in the
identity resolver is recovered locally — `specification` is `None` (after
a printed warning, a side effect outside this model), and recursive
resolution of an attribute the entry lacks directly stops there with
`None`. The call-site walk has no such recovery (see the
counterexample). -/
theorem c7_spec_unresolved (f : FunctionInfo) (off : Nat)
    (hattr : f.die.getAttr "DW_AT_specification" = some (AttrVal.num off))
    (hoff : off ≠ 0) (hdie : get_die_at_offset f.cu off = none) :
    f.specification = none
    ∧ (∀ (fuel : Nat) (a : String), f.die.getAttr a = none →
        f.getAttributeRecursive fuel a = none) := by
  have hspec : f.specification = none := by
    simp [FunctionInfo.specification, hattr, hoff, hdie]
  refine ⟨hspec, ?_⟩
  intro fuel a h
  cases fuel with
  | zero => rfl
  | succ n =>
    rw [getAttributeRecursive_succ]
    simp [h, hspec]

/-- Counterexample to C7 as stated: an inlined call-site entry whose
abstract-origin offset resolves to no DIE makes `process` raise
`AttributeError` — a hard failure, not a locally recovered warning. -/
theorem c7_counterexample :
    get_die_at_offset cuBadOrigin 99 = none
    ∧ process cuBadOrigin 5 = some (Except.error PyErr.attributeError) :=
  ⟨rfl, rfl⟩

/-- Witness for the amended C7 at a concrete dangling specification. -/
theorem c7_witness :
    FunctionInfo.specification (FunctionInfo.mk cuBadOrigin dieDangleSpec)
      = none
    ∧ FunctionInfo.getAttributeRecursive 4
        (FunctionInfo.mk cuBadOrigin dieDangleSpec) "DW_AT_name" = none := by
  have h := c7_spec_unresolved (FunctionInfo.mk cuBadOrigin dieDangleSpec) 99
    rfl (by decide) rfl
  exact ⟨h.1, h.2 4 "DW_AT_name" rfl⟩

/-- The call-site specification loop stops exactly at an entry lacking
the specification attribute. -/
theorem processSpecLoop_ok_no_spec (cu : CU) :
    ∀ (fuel : Nat) (o : Option DIE) (e : DIE),
      processSpecLoop cu fuel o = some (Except.ok e) →
      e.getAttr "DW_AT_specification" = none := by
  intro fuel
  induction fuel with
  | zero =>
    intro o e h
    cases o with
    | none => simp [processSpecLoop] at h
    | some d =>
      cases hs : d.getAttr "DW_AT_specification" with
      | none =>
        simp [processSpecLoop, hs] at h
        exact h ▸ hs
      | some v => cases v <;> simp [processSpecLoop, hs] at h
  | succ n ih =>
    intro o e h
    cases o with
    | none => simp [processSpecLoop] at h
    | some d =>
      cases hs : d.getAttr "DW_AT_specification" with
      | none =>
        simp [processSpecLoop, hs] at h
        exact h ▸ hs
      | some v =>
        cases v with
        | str s => simp [processSpecLoop, hs] at h
        | num off =>
          rw [processSpecLoop, hs] at h
          exact ih _ e h

/-- Claim C8 (amended): for an inlined call-site entry, the walk follows
the abstract-origin reference and then specification references while the
current entry still has one, stopping at the first entry lacking a
specification reference (not at the first entry carrying a name); it
reports that final entry's direct name attribute together with call file
and line taken from the call-site entry's own call-site attributes. -/
theorem c8_call_site (cu : CU) (d e : DIE) (fuel : Nat) (off cl : Nat)
    (v : AttrVal)
    (hao : d.getAttr "DW_AT_abstract_origin" = some (AttrVal.num off))
    (hloop : processSpecLoop cu fuel (get_die_at_offset cu off)
      = some (Except.ok e))
    (hname : e.getAttr "DW_AT_name" = some v)
    (hcl : d.getAttr "DW_AT_call_line" = some (AttrVal.num cl)) :
    processDIE cu fuel d
      = some (Except.ok (v.pyStr,
          pyStrOpt (get_coords_file cu d "DW_AT_call_file")
            ++ ":" ++ toString cl))
    ∧ e.getAttr "DW_AT_specification" = none := by
  refine ⟨?_, processSpecLoop_ok_no_spec cu fuel _ e hloop⟩
  simp [processDIE, hao, hloop, hname, get_die_call_coords, hcl,
    Except.bind, Except.map]

/-- Counterexample to C8 as stated: when the abstract-origin target
carries both a direct name (`foo`) and a specification reference to a
differently named entry (`bar`), the source walks past the named entry
and reports `bar`, while the claim's stopping rule would report `foo`. -/
theorem c8_counterexample :
    process cuCallSite 9 = some (Except.ok [("bar", "/src/a.c:5")])
    ∧ specModelProcessDIE cuCallSite 9 dieCallSite
      = some (Except.ok ("foo", "/src/a.c:5"))
    ∧ ("bar" : String) ≠ "foo" := ⟨rfl, rfl, by decide⟩

/-- Witness for the amended C8 at the concrete call-site unit. -/
theorem c8_witness :
    processDIE cuCallSite 9 dieCallSite
      = some (Except.ok ("bar",
          pyStrOpt (get_coords_file cuCallSite dieCallSite "DW_AT_call_file")
            ++ ":" ++ toString 5))
    ∧ dieSpecB.getAttr "DW_AT_specification" = none := by
  have h := c8_call_site cuCallSite dieCallSite dieSpecB 9 10 5
    (AttrVal.str "bar") rfl rfl rfl rfl
  exact ⟨h.1, h.2⟩

/-- Witness for the amended C2: a concrete inlined, named, non-ignored
entry is kept by the classifier. -/
theorem c2_witness :
    FunctionInfo.mk sampleCU dieA ∈ iter_inlined 4 ["/usr"] [sampleCU] :=
  (c2_classifier 4 ["/usr"] [sampleCU] sampleCU dieA).mpr
    ⟨List.mem_singleton_self _, by decide, rfl, rfl,
      ⟨"/src/a.c", rfl, by decide⟩, ⟨"_Z3foov", rfl, by decide⟩⟩

/-- Witness for C3: the sample unit's single report key appears exactly
once. -/
theorem c3_witness :
    (report_keys 4 [] [sampleCU]).count
      (some "/src/a.c", some 10, some "_Z3foov") = 1 :=
  (c3_report_sorted_dedup 4 [] [sampleCU]).2.1
    (some "/src/a.c", some 10, some "_Z3foov") (by decide)
